import Mathlib

/-!
Verification development for the netcli-parse repository.

The Rust sources are embedded shallowly:

* `Json` models the `serde_json::Value` objects the façade serialises.
  Objects are kept as association lists in construction order; the claims
  about envelopes concern the set of keys, which this representation
  preserves faithfully (serde_json's map ordering is an artifact of
  serialisation and is abstracted here).
* `Netcli` embeds `crates/netcli_core` (`platform.rs`, `commands.rs`,
  `parse.rs`, `registry.rs`).  The embedded `registry.json` resource is not
  part of the sources, so registry-dependent functions take the registry
  table as an explicit parameter.
* `TextfsmCore` embeds `textfsm_core/src/lib.rs`.

Rust's `char::to_ascii_lowercase` is `Char.toLower` (both act only on
`A`-`Z`).  Rust's `char::is_whitespace` is modelled by `Char.isWhitespace`;
the two agree on the ASCII whitespace that the repository's commands and
tests use.
-/

/-- A JSON value, as produced by the façade's envelope builders. -/
inductive Json where
  | bool : Bool → Json
  | str : String → Json
  | arr : List Json → Json
  | obj : List (String × Json) → Json

/-- The keys of a JSON object (empty for non-objects). -/
def Json.keys : Json → List String
  | .obj kvs => kvs.map Prod.fst
  | _ => []

/-- Whether the envelope is a success envelope: an object whose field
named ok holds the boolean true. -/
def Json.okTrue : Json → Bool
  | .obj kvs => kvs.any fun kv =>
      kv.1 == "ok" && (match kv.2 with | .bool b => b | _ => false)
  | _ => false

/-- The keys of the object stored under the field named error
(empty when there is no such object field). -/
def Json.errorKeys : Json → List String
  | .obj kvs =>
      match kvs.lookup "error" with
      | some e => e.keys
      | none => []
  | _ => []

namespace Netcli

/-- One character of Rust's `s.to_ascii_lowercase().replace('-', "_")`
(used by `Platform::from_str` in `platform.rs` and by the per-token
normalization in `registry.rs`). -/
def asciiLowerDash (ch : Char) : Char :=
  let l := ch.toLower
  if l = '-' then '_' else l

/-- One character of Rust's
`s.to_ascii_lowercase().replace(' ', "_").replace('-', "_")`
(used by `CommandKey::from_str` in `commands.rs`). -/
def keyChar (ch : Char) : Char :=
  let l := ch.toLower
  if l = ' ' then '_' else if l = '-' then '_' else l

/-- The `Platform` enum of `platform.rs`. -/
inductive Platform where
  | ciscoIos
  | ciscoNxos
  | ciscoIosXr
  | juniperJunos
  | aristaEos
  | driveNetsDnos
deriving DecidableEq

/-- Rust `Platform::slug` of `platform.rs`. -/
def Platform.slug : Platform → String
  | .ciscoIos => "cisco_ios"
  | .ciscoNxos => "cisco_nxos"
  | .ciscoIosXr => "cisco_iosxr"
  | .juniperJunos => "juniper_junos"
  | .aristaEos => "arista_eos"
  | .driveNetsDnos => "drivenets_dnos"

/-- Rust `Platform::from_str` of `platform.rs`: lowercase, hyphens to
underscores, then match against the accepted spellings.  `none` models
`Err(..)`. -/
def Platform.from_str (s : String) : Option Platform :=
  let t := String.mk (s.data.map asciiLowerDash)
  if t = "cisco_ios" ∨ t = "ios" then some .ciscoIos
  else if t = "cisco_nxos" ∨ t = "nxos" ∨ t = "nx_os" then some .ciscoNxos
  else if t = "cisco_iosxr" ∨ t = "iosxr" ∨ t = "ios_xr" then some .ciscoIosXr
  else if t = "juniper_junos" ∨ t = "junos" then some .juniperJunos
  else if t = "arista_eos" ∨ t = "eos" then some .aristaEos
  else if t = "drivenets_dnos" ∨ t = "dnos" ∨ t = "drivenets" then some .driveNetsDnos
  else none

/-- The `CommandKey` enum of `commands.rs`. -/
inductive CommandKey where
  | showVersion
  | showInterfacesBrief
  | showInventory
  | showBgpSummary
  | showIpRoute
  | showLldpNeighbors
deriving DecidableEq

/-- Rust `CommandKey::slug` of `commands.rs`. -/
def CommandKey.slug : CommandKey → String
  | .showVersion => "show_version"
  | .showInterfacesBrief => "show_interfaces_brief"
  | .showInventory => "show_inventory"
  | .showBgpSummary => "show_bgp_summary"
  | .showIpRoute => "show_ip_route"
  | .showLldpNeighbors => "show_lldp_neighbors"

/-- Rust `CommandKey::from_str` of `commands.rs`: lowercase, spaces and hyphens
to underscores, then match against the accepted slugs. -/
def CommandKey.from_str (s : String) : Option CommandKey :=
  let t := String.mk (s.data.map keyChar)
  if t = "show_version" then some .showVersion
  else if t = "show_interfaces_brief" ∨ t = "show_int_brief" then some .showInterfacesBrief
  else if t = "show_inventory" then some .showInventory
  else if t = "show_bgp_summary" then some .showBgpSummary
  else if t = "show_ip_route" then some .showIpRoute
  else if t = "show_lldp_neighbors" then some .showLldpNeighbors
  else none

/-- The `ParseError` enum of `parse.rs`. -/
inductive ParseError where
  | unknownPlatform : String → ParseError
  | unknownCommand : String → ParseError
  | emptyInput : String → ParseError
  | templateNotFound : String → ParseError
  | engineError : String → ParseError
deriving DecidableEq

/-- Rust `ParseError::code` of `parse.rs`. -/
def ParseError.code : ParseError → String
  | .unknownPlatform _ => "UNKNOWN_PLATFORM"
  | .unknownCommand _ => "UNKNOWN_COMMAND"
  | .emptyInput _ => "INVALID_INPUT"
  | .templateNotFound _ => "TEMPLATE_NOT_FOUND"
  | .engineError _ => "ENGINE_ERROR"

/-- The `Display` impl for `ParseError` in `parse.rs`. -/
def ParseError.message : ParseError → String
  | .unknownPlatform s => "unknown platform: " ++ s
  | .unknownCommand s => "unknown command key: " ++ s
  | .emptyInput field => "required input is empty: " ++ field
  | .templateNotFound path => "template not found: " ++ path
  | .engineError msg => "engine error: " ++ msg

/-- A parsed record: `HashMap<String, String>` modelled as an association
list. -/
abbrev Record := List (String × String)

/-- Rust `parse_records` of `parse.rs`.  Phase 1 of the Rust code: validates
the inputs, resolves platform and command key, and returns an empty `Vec`
(the template engine is not invoked). -/
def parse_records (platform command_key output_text : String) :
    Except ParseError (List Record) :=
  if platform = "" then Except.error (ParseError.emptyInput "platform")
  else if command_key = "" then Except.error (ParseError.emptyInput "command_key")
  else if output_text = "" then Except.error (ParseError.emptyInput "output_text")
  else
    match Platform.from_str platform with
    | none => Except.error (ParseError.unknownPlatform platform)
    | some _ =>
        match CommandKey.from_str command_key with
        | none => Except.error (ParseError.unknownCommand command_key)
        | some _ => Except.ok []

/-- One record as a JSON object (`parse_json` maps every field to a JSON
string). -/
def recordJson (r : Record) : Json :=
  Json.obj (r.map fun kv => (kv.1, Json.str kv.2))

/-- Rust `parse_json` of `parse.rs`: wraps `parse_records` in the JSON
envelope.  On success the platform and command are re-parsed and replaced
by their canonical slugs when that succeeds. -/
def parse_json (platform command_key output_text : String) : Json :=
  match parse_records platform command_key output_text with
  | .ok records =>
      let resolvedPlatform :=
        match Platform.from_str platform with
        | some p => p.slug
        | none => platform
      let resolvedCommand :=
        match CommandKey.from_str command_key with
        | some c => c.slug
        | none => command_key
      Json.obj [("ok", Json.bool true),
                ("platform", Json.str resolvedPlatform),
                ("commandKey", Json.str resolvedCommand),
                ("records", Json.arr (records.map recordJson))]
  | .error e =>
      Json.obj [("ok", Json.bool false),
                ("error", Json.obj [("code", Json.str e.code),
                                    ("message", Json.str e.message)])]

/-- A row of the embedded `registry.json` manifest (`registry.rs`). -/
structure RegistryEntry where
  platform : String
  command_key : String
  template : String
  shape : String
deriving DecidableEq

/-- The registry table `(platform, commandKey) → entry`.  The embedded
`registry.json` resource is data that is not part of the sources, so the
table is passed explicitly; `HashMap` lookup is modelled by association
list lookup. -/
abbrev Registry := List ((String × String) × RegistryEntry)

/-- Rust `resolve_platform` of `registry.rs`. -/
def resolve_platform (platform : String) : String :=
  if platform = "cisco_iosxe" then "cisco_ios"
  else if platform = "nokia_sros" then "alcatel_sros"
  else if platform = "cisco_iosxr" then "cisco_xr"
  else platform

/-- Rust `lookup` of `registry.rs`: registry lookup after alias resolution. -/
def lookup (reg : Registry) (platform command_key : String) : Option RegistryEntry :=
  reg.lookup (resolve_platform platform, command_key)

/-- Rust `expand_abbreviation` of `registry.rs`. -/
def expand_abbreviation (word : String) : String :=
  match word with
  | "sh" | "sho" => "show"
  | "int" => "interface"
  | "br" => "brief"
  | "ex" => "exclude"
  | "unas" => "unassigned"
  | "desc" => "description"
  | "neigh" | "nei" => "neighbors"
  | "sum" => "summary"
  | "det" => "detail"
  | "inv" => "inventory"
  | "env" => "environment"
  | "ver" => "version"
  | "trans" => "transceiver"
  | "stat" => "status"
  | "proc" => "processes"
  | "addr" => "address"
  | "conf" => "config"
  | "run" => "running"
  | "temp" => "temperature"
  | other => other

/-- The split predicate of `normalize_command` and `normalize_raw`:
whitespace or the pipe character. -/
def isSepChar (ch : Char) : Bool :=
  ch.isWhitespace || ch == '|'

/-- Rust's `str::split` on a character predicate (the fields between
separator characters, empty fields included) followed by
`filter(|s| !s.is_empty())`: `List.splitOnP` has exactly the `split`
semantics. -/
def tokens (command : String) : List (List Char) :=
  (command.data.splitOnP isSepChar).filter fun w => !w.isEmpty

/-- Rust `normalize_raw` of `registry.rs`: split on whitespace and pipes, drop
empty tokens, lowercase and map hyphens to underscores; only the
`sh`/`sho` → `show` expansion is applied; join with underscores. -/
def normalize_raw (command : String) : String :=
  String.intercalate "_" ((tokens command).map fun w =>
    let s := String.mk (w.map asciiLowerDash)
    if s = "sh" ∨ s = "sho" then "show" else s)

/-- Rust `normalize_command` of `registry.rs`: as `normalize_raw` but with the
full abbreviation table applied to each token. -/
def normalize_command (command : String) : String :=
  String.intercalate "_" ((tokens command).map fun w =>
    expand_abbreviation (String.mk (w.map asciiLowerDash)))

/-- Rust `lookup_command` of `registry.rs`: look up the abbreviation-expanded
key; on a miss, retry with the raw form when it differs. -/
def lookup_command (reg : Registry) (platform command : String) :
    String × Option RegistryEntry :=
  let expanded := normalize_command command
  match lookup reg platform expanded with
  | some entry => (expanded, some entry)
  | none =>
      let raw := normalize_raw command
      if raw ≠ expanded then
        match lookup reg platform raw with
        | some entry => (raw, some entry)
        | none => (expanded, none)
      else (expanded, none)

/-- Modelled from the spec: the command-based façade entry point
`parse_command_records(platform, raw_command, output_text)` is missing
from the sources — `netcli_ffi` calls `netcli_core::parse_command_json`
and the golden tests call `netcli_core::parse_command_records`, but
`netcli_core` defines neither.  Per the spec it is the same as
`parse_records` after command normalization, with an INVALID_INPUT error
for an empty or whitespace-only command. -/
def parse_command_records (platform command output_text : String) :
    Except ParseError (List Record) :=
  let key := normalize_command command
  if key = "" then Except.error (ParseError.emptyInput "command")
  else parse_records platform key output_text

end Netcli

namespace TextfsmCore

/-- Rust `error_envelope` of `textfsm_core/src/lib.rs`. -/
def error_envelope (code message : String) : Json :=
  Json.obj [("ok", Json.bool false),
            ("error", Json.obj [("code", Json.str code),
                                ("message", Json.str message)])]

/-- Rust `parse_json` of `textfsm_core/src/lib.rs`: rejects empty inputs with
an INVALID_INPUT envelope and otherwise returns a success envelope with an
empty records array (stub). -/
def parse_json (vendor command_key template_text output_text : String) : Json :=
  if vendor = "" ∨ command_key = "" ∨ template_text = "" ∨ output_text = "" then
    error_envelope "INVALID_INPUT" "One or more required inputs are empty"
  else
    Json.obj [("ok", Json.bool true),
              ("vendor", Json.str vendor),
              ("commandKey", Json.str command_key),
              ("records", Json.arr [])]

end TextfsmCore

namespace Netcli

/-- Splitting a character list at separator characters, written directly
from the spec's words ("split on whitespace and the pipe"): the fields
between separators, empty fields included. -/
def specSplitFields (p : Char → Bool) : List Char → List (List Char)
  | [] => [[]]
  | c :: cs =>
      if p c then [] :: specSplitFields p cs
      else (specSplitFields p cs).modifyHead (c :: ·)

/-- The normalization pipeline as the spec words it: split on whitespace
and the pipe, discard empty tokens, lowercase each token and map hyphens
to underscores, expand abbreviations per the fixed table, join with
underscores. -/
def normalizeCommandSpec (command : String) : String :=
  String.intercalate "_"
    (((specSplitFields isSepChar command.data).filter fun w => !w.isEmpty).map
      fun w => expand_abbreviation (String.mk (w.map asciiLowerDash)))

/-- The raw fallback form exactly as claim C6 describes it: only the
split, lowercase, hyphen-to-underscore and join steps, with no
abbreviation expansion at all. -/
def rawNoExpansionSpec (command : String) : String :=
  String.intercalate "_" ((tokens command).map fun w => String.mk (w.map asciiLowerDash))

/-- A registry entry keyed by the unexpanded token form `sho_ver`, used to
exercise the fallback path of `lookup_command`. -/
def entryShoVer : RegistryEntry :=
  { platform := "cisco_ios", command_key := "sho_ver",
    template := "templates/cisco_ios_sho_ver.textfsm", shape := "list" }

/-- A one-entry registry containing only `(cisco_ios, sho_ver)`. -/
def regShoVer : Registry := [(("cisco_ios", "sho_ver"), entryShoVer)]

/-- A registry entry keyed by `show_ver`, the raw normalized form of
`sh ver`. -/
def entryShowVer : RegistryEntry :=
  { platform := "cisco_ios", command_key := "show_ver",
    template := "templates/cisco_ios_show_ver.textfsm", shape := "list" }

/-- A one-entry registry containing only `(cisco_ios, show_ver)`. -/
def regShowVer : Registry := [(("cisco_ios", "show_ver"), entryShowVer)]

/-- A stand-in for the `cisco_ios/show_version.txt` fixture of the golden
tests (the fixture file itself is not among the sources).  `parse_records`
only inspects the output text for emptiness, so any non-empty output
exercises the same code path. -/
def ciscoIosShowVersionOutput : String :=
  "Cisco IOS Software, C3750 Software (C3750-IPSERVICESK9-M), Version 12.2(55)SE10\n" ++
  "Router01 uptime is 1 year, 18 weeks, 5 days\n" ++
  "System image file is flash:c3750-ipservicesk9-mz.122-55.SE10.bin\n"

end Netcli

namespace Netcli

/-- The spec-worded splitter agrees with the library splitter that embeds
Rust's `str::split`. -/
theorem specSplitFields_eq (p : Char → Bool) (l : List Char) :
    specSplitFields p l = l.splitOnP p := by
  induction l with
  | nil => simp [specSplitFields]
  | cons c cs ih => simp [specSplitFields, ih, List.splitOnP_cons]

/-- Splitting a list all of whose characters are separators produces only
empty fields. -/
theorem splitOnP_all_sep {p : Char → Bool} {l : List Char}
    (h : ∀ ch ∈ l, p ch = true) : ∀ w ∈ l.splitOnP p, w = [] := by
  induction l with
  | nil => intro w hw; simpa using hw
  | cons c cs ih =>
      intro w hw
      rw [List.splitOnP_cons, if_pos (h c (List.mem_cons_self c cs))] at hw
      rcases List.mem_cons.mp hw with rfl | hw
      · rfl
      · exact ih (fun ch hch => h ch (List.mem_cons_of_mem _ hch)) w hw

/-- A whitespace-only command has no tokens. -/
theorem tokens_eq_nil {c : String} (h : ∀ ch ∈ c.data, ch.isWhitespace = true) :
    tokens c = [] := by
  unfold tokens
  rw [List.filter_eq_nil_iff]
  intro w hw
  have hsep : ∀ ch ∈ c.data, isSepChar ch = true := fun ch hch => by
    simp [isSepChar, h ch hch]
  rw [splitOnP_all_sep hsep w hw]
  simp

/-- A whitespace-only command normalizes to the empty key. -/
theorem normalize_command_ws {c : String} (h : ∀ ch ∈ c.data, ch.isWhitespace = true) :
    normalize_command c = "" := by
  unfold normalize_command
  rw [tokens_eq_nil h]
  rfl

/-- Helper fact: `keyChar` never maps a whitespace character to the letter starting
every accepted command slug. -/
theorem keyChar_ws_ne {ch : Char} (h : ch.isWhitespace = true) : keyChar ch ≠ 's' := by
  have hcases : ((ch = ' ' ∨ ch = '\t') ∨ ch = '\x0d') ∨ ch = '\n' := by
    simpa [Char.isWhitespace] using h
  rcases hcases with ((rfl | rfl) | rfl) | rfl <;> decide

/-- Rust `CommandKey::from_str` rejects a non-empty whitespace-only string. -/
theorem from_str_ws_none {c : String} (hne : c ≠ "")
    (h : ∀ ch ∈ c.data, ch.isWhitespace = true) :
    CommandKey.from_str c = none := by
  obtain ⟨a, as, hd⟩ : ∃ a as, c.data = a :: as := by
    cases hc : c.data with
    | nil =>
        exfalso
        apply hne
        cases c
        simp_all
    | cons a as => exact ⟨a, as, rfl⟩
  have ha : keyChar a ≠ 's' := keyChar_ws_ne (h a (hd ▸ List.mem_cons_self a as))
  have hmk : ∀ (s : String), s.data.head? = some 's' →
      String.mk (c.data.map keyChar) ≠ s := by
    intro s hs heq
    have hdata := congrArg String.data heq
    simp only [hd, List.map_cons] at hdata
    apply ha
    have := congrArg List.head? hdata
    rw [hs] at this
    simpa using this
  unfold CommandKey.from_str
  simp only []
  split_ifs with h1 h2 h3 h4 h5 h6
  · exact absurd h1 (hmk _ (by decide))
  · rcases h2 with h2 | h2
    · exact absurd h2 (hmk _ (by decide))
    · exact absurd h2 (hmk _ (by decide))
  · exact absurd h3 (hmk _ (by decide))
  · exact absurd h4 (hmk _ (by decide))
  · exact absurd h5 (hmk _ (by decide))
  · exact absurd h6 (hmk _ (by decide))
  · rfl

end Netcli

/-- C10 core fact: every successful run of the stub returns no records. -/
theorem parse_records_ok_eq_nil (p c o : String) (r : List Netcli.Record)
    (h : Netcli.parse_records p c o = Except.ok r) : r = [] := by
  unfold Netcli.parse_records at h
  split_ifs at h
  rcases hpf : Netcli.Platform.from_str p with _ | pl
  · rw [hpf] at h; cases h
  · rw [hpf] at h
    rcases hcf : Netcli.CommandKey.from_str c with _ | ck
    · rw [hcf] at h; cases h
    · rw [hcf] at h
      cases h
      rfl

/-- C1: the cisco_ios/show_version scenario.  `parse_records` is a phase-1
stub, so the façade returns a success envelope with an empty records
array; no record with hostname Router01 is produced. -/
theorem claim_C1_eval :
    Netcli.parse_records "cisco_ios" "show_version" Netcli.ciscoIosShowVersionOutput
      = Except.ok [] ∧
    Netcli.parse_json "cisco_ios" "show_version" Netcli.ciscoIosShowVersionOutput
      = Json.obj [("ok", Json.bool true), ("platform", Json.str "cisco_ios"),
                  ("commandKey", Json.str "show_version"),
                  ("records", Json.arr [])] :=
  ⟨rfl, rfl⟩

/-- C2: for the unknown platform nonexistent_os the façade returns an
error envelope with code UNKNOWN_PLATFORM, not TEMPLATE_NOT_FOUND: the
stub rejects the platform before any registry lookup. -/
theorem claim_C2_eval :
    Netcli.parse_json "nonexistent_os" "show_version" "x"
      = Json.obj [("ok", Json.bool false),
                  ("error", Json.obj [("code", Json.str "UNKNOWN_PLATFORM"),
                                      ("message", Json.str "unknown platform: nonexistent_os")])] ∧
    "UNKNOWN_PLATFORM" ≠ "TEMPLATE_NOT_FOUND" :=
  ⟨rfl, by decide⟩

/-- C3 counterexample: a whitespace-only command key is rejected by
`parse_records` with error code UNKNOWN_COMMAND, not INVALID_INPUT. -/
theorem claim_C3_counterexample :
    Netcli.parse_records "cisco_ios" "   " "some output"
      = Except.error (Netcli.ParseError.unknownCommand "   ") ∧
    (Netcli.ParseError.unknownCommand "   ").code = "UNKNOWN_COMMAND" ∧
    "UNKNOWN_COMMAND" ≠ "INVALID_INPUT" :=
  ⟨rfl, rfl, by decide⟩

/-- C3 as amended: an empty platform, command key or output text makes
`parse_records` fail with an `EmptyInput` error, whose code is
INVALID_INPUT; a whitespace-only command key never succeeds (though its
error is UNKNOWN_COMMAND, see the counterexample); and the spec-modelled
command façade rejects a whitespace-only raw command with INVALID_INPUT. -/
theorem claim_C3_amended : ∀ p c o : String,
    ((p = "" ∨ c = "" ∨ o = "") →
      ∃ f, Netcli.parse_records p c o = Except.error (Netcli.ParseError.emptyInput f)) ∧
    (∀ f, (Netcli.ParseError.emptyInput f).code = "INVALID_INPUT") ∧
    ((∀ ch ∈ c.data, ch.isWhitespace = true) →
      (∀ r, Netcli.parse_records p c o ≠ Except.ok r) ∧
      Netcli.parse_command_records p c o
        = Except.error (Netcli.ParseError.emptyInput "command")) := by
  intro p c o
  refine ⟨?_, fun _ => rfl, ?_⟩
  · intro h
    by_cases hp : p = ""
    · exact ⟨"platform", by unfold Netcli.parse_records; rw [if_pos hp]⟩
    · by_cases hc : c = ""
      · exact ⟨"command_key", by unfold Netcli.parse_records; rw [if_neg hp, if_pos hc]⟩
      · have ho : o = "" := by tauto
        exact ⟨"output_text",
          by unfold Netcli.parse_records; rw [if_neg hp, if_neg hc, if_pos ho]⟩
  · intro hws
    constructor
    · intro r hr
      unfold Netcli.parse_records at hr
      by_cases hp : p = ""
      · rw [if_pos hp] at hr; cases hr
      rw [if_neg hp] at hr
      by_cases hc : c = ""
      · rw [if_pos hc] at hr; cases hr
      rw [if_neg hc] at hr
      by_cases ho : o = ""
      · rw [if_pos ho] at hr; cases hr
      rw [if_neg ho] at hr
      rcases hpf : Netcli.Platform.from_str p with _ | pl
      · rw [hpf] at hr; cases hr
      · rw [hpf, Netcli.from_str_ws_none hc hws] at hr
        cases hr
    · unfold Netcli.parse_command_records
      rw [Netcli.normalize_command_ws hws]
      simp

/-- C3 witness: the amended statement at concrete inputs. -/
theorem claim_C3_witness :
    (∃ f, Netcli.parse_records "cisco_ios" "" "some output"
      = Except.error (Netcli.ParseError.emptyInput f)) ∧
    (∀ r, Netcli.parse_records "cisco_ios" "   " "some output" ≠ Except.ok r) ∧
    Netcli.parse_command_records "cisco_ios" "   " "some output"
      = Except.error (Netcli.ParseError.emptyInput "command") :=
  ⟨(claim_C3_amended "cisco_ios" "" "some output").1 (Or.inr (Or.inl rfl)),
   ((claim_C3_amended "cisco_ios" "   " "some output").2.2 (by decide)).1,
   ((claim_C3_amended "cisco_ios" "   " "some output").2.2 (by decide)).2⟩

/-- C4 counterexample: a successful envelope of `textfsm_core::parse_json`
carries the key vendor, not platform, so not every successful envelope of
the public parse operations has exactly the keys of the claim. -/
theorem claim_C4_counterexample :
    (TextfsmCore.parse_json "cisco_ios" "show version" "Value UPTIME" "router uptime").okTrue
      = true ∧
    (TextfsmCore.parse_json "cisco_ios" "show version" "Value UPTIME" "router uptime").keys
      = ["ok", "vendor", "commandKey", "records"] ∧
    "platform" ∉
      (TextfsmCore.parse_json "cisco_ios" "show version" "Value UPTIME" "router uptime").keys :=
  ⟨rfl, rfl, by decide⟩

/-- C4 as amended: `netcli_core::parse_json` envelopes have exactly the
claimed keys (ok, platform, commandKey, records on success; ok and
error with code and message on failure); the `textfsm_core::parse_json`
success envelope instead carries vendor in place of platform. -/
theorem claim_C4_amended : ∀ p c o t : String,
    ((Netcli.parse_json p c o).okTrue = true →
      (Netcli.parse_json p c o).keys = ["ok", "platform", "commandKey", "records"]) ∧
    ((Netcli.parse_json p c o).okTrue = false →
      (Netcli.parse_json p c o).keys = ["ok", "error"] ∧
      (Netcli.parse_json p c o).errorKeys = ["code", "message"]) ∧
    ((TextfsmCore.parse_json p c t o).okTrue = true →
      (TextfsmCore.parse_json p c t o).keys = ["ok", "vendor", "commandKey", "records"]) ∧
    ((TextfsmCore.parse_json p c t o).okTrue = false →
      (TextfsmCore.parse_json p c t o).keys = ["ok", "error"] ∧
      (TextfsmCore.parse_json p c t o).errorKeys = ["code", "message"]) := by
  intro p c o t
  refine ⟨?_, ?_, ?_, ?_⟩
  · intro hok
    unfold Netcli.parse_json at hok ⊢
    rcases h : Netcli.parse_records p c o with e | rs
    · rw [h] at hok
      simp [Json.okTrue] at hok
    · rfl
  · intro hok
    unfold Netcli.parse_json at hok ⊢
    rcases h : Netcli.parse_records p c o with e | rs
    · exact ⟨rfl, rfl⟩
    · rw [h] at hok
      simp [Json.okTrue] at hok
  · intro hok
    unfold TextfsmCore.parse_json at hok ⊢
    by_cases h : p = "" ∨ c = "" ∨ t = "" ∨ o = ""
    · rw [if_pos h] at hok
      simp [TextfsmCore.error_envelope, Json.okTrue] at hok
    · rw [if_neg h]
      rfl
  · intro hok
    unfold TextfsmCore.parse_json at hok ⊢
    by_cases h : p = "" ∨ c = "" ∨ t = "" ∨ o = ""
    · rw [if_pos h]
      exact ⟨rfl, rfl⟩
    · rw [if_neg h] at hok
      simp [Json.okTrue] at hok

/-- C4 witness: the amended statement at concrete inputs, one success and
one failure for each façade. -/
theorem claim_C4_witness :
    (Netcli.parse_json "cisco_ios" "show_version" "x").keys
      = ["ok", "platform", "commandKey", "records"] ∧
    ((Netcli.parse_json "" "show_version" "x").keys = ["ok", "error"] ∧
      (Netcli.parse_json "" "show_version" "x").errorKeys = ["code", "message"]) ∧
    (TextfsmCore.parse_json "cisco_ios" "show version" "Value A" "out").keys
      = ["ok", "vendor", "commandKey", "records"] ∧
    ((TextfsmCore.parse_json "" "show version" "Value A" "out").keys = ["ok", "error"] ∧
      (TextfsmCore.parse_json "" "show version" "Value A" "out").errorKeys
        = ["code", "message"]) :=
  ⟨(claim_C4_amended "cisco_ios" "show_version" "x" "t").1 rfl,
   (claim_C4_amended "" "show_version" "x" "t").2.1 rfl,
   (claim_C4_amended "cisco_ios" "show version" "out" "Value A").2.2.1 rfl,
   (claim_C4_amended "" "show version" "out" "Value A").2.2.2 rfl⟩

/-- C5: command normalization behaves as described: the worked example
and the listed abbreviations hold, and on every command string
`normalize_command` equals the pipeline written from the spec's words
(split on whitespace and pipes, discard empty tokens, lowercase, hyphen
to underscore, expand the abbreviation table, join with underscores). -/
theorem claim_C5 :
    Netcli.normalize_command "sho ip int br | ex unas"
      = "show_ip_interface_brief_exclude_unassigned" ∧
    Netcli.expand_abbreviation "sh" = "show" ∧
    Netcli.expand_abbreviation "sho" = "show" ∧
    Netcli.expand_abbreviation "int" = "interface" ∧
    Netcli.expand_abbreviation "br" = "brief" ∧
    Netcli.expand_abbreviation "ex" = "exclude" ∧
    Netcli.expand_abbreviation "unas" = "unassigned" ∧
    ∀ command : String, Netcli.normalize_command command
      = Netcli.normalizeCommandSpec command := by
  refine ⟨rfl, rfl, rfl, rfl, rfl, rfl, rfl, ?_⟩
  intro command
  unfold Netcli.normalize_command Netcli.normalizeCommandSpec Netcli.tokens
  rw [Netcli.specSplitFields_eq]

/-- C6 counterexample: with a registry keyed by the unexpanded form
`sho_ver`, the expanded key misses and the claim's expansion-free raw form
hits, yet `lookup_command` still returns no entry — its fallback raw form
expands `sho` to `show`. -/
theorem claim_C6_counterexample :
    Netcli.normalize_command "sho ver" = "show_version" ∧
    Netcli.rawNoExpansionSpec "sho ver" = "sho_ver" ∧
    Netcli.normalize_raw "sho ver" = "show_ver" ∧
    Netcli.lookup Netcli.regShoVer "cisco_ios" "show_version" = none ∧
    Netcli.lookup Netcli.regShoVer "cisco_ios" "sho_ver" = some Netcli.entryShoVer ∧
    Netcli.lookup_command Netcli.regShoVer "cisco_ios" "sho ver" = ("show_version", none) :=
  ⟨rfl, rfl, rfl, rfl, rfl, rfl⟩

/-- C6 as amended: when the expanded key misses, `lookup_command` retries
with `normalize_raw` — the split, lowercase, hyphen-to-underscore and join
steps plus only the `sh`/`sho` → `show` expansion — and returns that entry
on a hit. -/
theorem claim_C6_amended :
    ∀ (reg : Netcli.Registry) (p c : String) (e : Netcli.RegistryEntry),
    Netcli.lookup reg p (Netcli.normalize_command c) = none →
    Netcli.normalize_raw c ≠ Netcli.normalize_command c →
    Netcli.lookup reg p (Netcli.normalize_raw c) = some e →
    Netcli.lookup_command reg p c = (Netcli.normalize_raw c, some e) := by
  intro reg p c e h1 h2 h3
  unfold Netcli.lookup_command
  simp only []
  rw [h1]
  simp only [if_pos h2]
  rw [h3]

/-- C6 witness: the amended statement at a registry keyed by `show_ver`,
which the raw form of `sh ver` reaches. -/
theorem claim_C6_witness :
    Netcli.lookup_command Netcli.regShowVer "cisco_ios" "sh ver"
      = ("show_ver", some Netcli.entryShowVer) :=
  claim_C6_amended Netcli.regShowVer "cisco_ios" "sh ver" Netcli.entryShowVer
    rfl (by decide) rfl

/-- C7: the spec-modelled command façade depends on its command argument
only through `normalize_command`, so spellings that normalize alike parse
alike. -/
theorem claim_C7 : ∀ (p o c1 c2 : String),
    Netcli.normalize_command c1 = Netcli.normalize_command c2 →
    Netcli.parse_command_records p c1 o = Netcli.parse_command_records p c2 o := by
  intro p o c1 c2 h
  unfold Netcli.parse_command_records
  rw [h]

/-- C7 witness: three equivalent spellings of show version parse
identically. -/
theorem claim_C7_witness :
    Netcli.parse_command_records "cisco_ios" "show version" "out"
      = Netcli.parse_command_records "cisco_ios" "  Show   Version  " "out" ∧
    Netcli.parse_command_records "cisco_ios" "show version" "out"
      = Netcli.parse_command_records "cisco_ios" "sh ver" "out" :=
  ⟨claim_C7 "cisco_ios" "out" "show version" "  Show   Version  " rfl,
   claim_C7 "cisco_ios" "out" "show version" "sh ver" rfl⟩

/-- C8: at the registry, alias and canonical platform look up the same
entry for every table and key; but the parse façade rejects the alias
platforms cisco_iosxe, nokia_sros and alcatel_sros as unknown (and
accepts cisco_iosxr while rejecting its canonical form cisco_xr), so
parsing under an alias does not yield the canonical platform's records. -/
theorem claim_C8_eval :
    (∀ (reg : Netcli.Registry) (k : String),
      Netcli.lookup reg "cisco_iosxe" k = Netcli.lookup reg "cisco_ios" k ∧
      Netcli.lookup reg "nokia_sros" k = Netcli.lookup reg "alcatel_sros" k ∧
      Netcli.lookup reg "cisco_iosxr" k = Netcli.lookup reg "cisco_xr" k) ∧
    Netcli.parse_records "cisco_iosxe" "show_version" "x"
      = Except.error (Netcli.ParseError.unknownPlatform "cisco_iosxe") ∧
    Netcli.parse_records "cisco_ios" "show_version" "x" = Except.ok [] ∧
    Netcli.parse_records "cisco_iosxr" "show_version" "x" = Except.ok [] ∧
    Netcli.parse_records "cisco_xr" "show_version" "x"
      = Except.error (Netcli.ParseError.unknownPlatform "cisco_xr") ∧
    Netcli.parse_records "nokia_sros" "show_version" "x"
      = Except.error (Netcli.ParseError.unknownPlatform "nokia_sros") ∧
    Netcli.parse_records "alcatel_sros" "show_version" "x"
      = Except.error (Netcli.ParseError.unknownPlatform "alcatel_sros") :=
  ⟨fun _ _ => ⟨rfl, rfl, rfl⟩, rfl, rfl, rfl, rfl, rfl, rfl⟩

/-- C9: in this embedding the parse operations are functions of their
inputs alone — the Rust code holds no mutable state across calls (the
registry is initialised once into an immutable map) — so two invocations
on the same triple yield identical results. -/
theorem claim_C9 : ∀ p c o : String,
    Netcli.parse_records p c o = Netcli.parse_records p c o ∧
    Netcli.parse_json p c o = Netcli.parse_json p c o :=
  fun _ _ _ => ⟨rfl, rfl⟩

/-- C10: whenever the stub `parse_records` succeeds, the record list is
empty — no code path produces a non-empty record list. -/
theorem claim_C10 : ∀ (p c o : String) (r : List Netcli.Record),
    Netcli.parse_records p c o = Except.ok r → r = [] :=
  parse_records_ok_eq_nil

/-- C10 witness: a succeeding triple, with its (empty) record list. -/
theorem claim_C10_witness :
    ∃ r, Netcli.parse_records "cisco_ios" "show_version" "some output" = Except.ok r ∧
      r = [] :=
  ⟨[], rfl, claim_C10 "cisco_ios" "show_version" "some output" [] rfl⟩
